import Mathlib

/-!
Verification of the logaround log-search pipeline (logaround.py).

The embedded core is:
- `parse_journalctl_output` — the tolerant line parser (one `LogRecord` per
  input line, with a whole-line fallback on regex mismatch);
- `search_logs` — the multi-term filter plus symmetric context-window
  expansion around each matching row.

Machine strings are modelled as Lean `String`/`List Char`; Python's
Unicode-aware character classes are modelled by their ASCII fragments
(noted at each definition).
-/

namespace Logaround

/-- Characters that Python's `str.splitlines` treats as line boundaries:
LF, CR (and the combination CRLF), vertical tab, form feed, the three
information separators, NEL, LINE SEPARATOR and PARAGRAPH SEPARATOR. -/
def isLineBreak (c : Char) : Bool :=
  c = '\n' || c = '\r' || c = '\x0b' || c = '\x0c' ||
  c = '\x1c' || c = '\x1d' || c = '\x1e' || c = '\x85' ||
  c = ' ' || c = ' '

/-- `str.splitlines` on a character list: split at every line boundary,
treating CRLF as a single boundary, with no empty line for a trailing
boundary (so the empty text gives no lines at all). -/
def splitlinesAux : List Char → List (List Char)
  | [] => []
  | '\r' :: '\n' :: cs => [] :: splitlinesAux cs
  | '\r' :: cs => [] :: splitlinesAux cs
  | c :: cs =>
    if isLineBreak c then
      [] :: splitlinesAux cs
    else
      match splitlinesAux cs with
      | [] => [[c]]
      | l :: ls => (c :: l) :: ls

/-- Python `output.splitlines()`. -/
def pySplitlines (s : String) : List String :=
  (splitlinesAux s.toList).map (fun l => String.mk l)

/-- The ASCII whitespace characters of Python's `str.strip` / regex `\s`
class: space, tab, LF, CR, vertical tab, form feed. -/
def isPySpace (c : Char) : Bool :=
  c = ' ' || c = '\t' || c = '\n' || c = '\r' || c = '\x0b' || c = '\x0c'

/-- Python `str.strip()`: remove leading and trailing whitespace. -/
def pyStrip (s : String) : String :=
  String.mk (((s.toList.dropWhile isPySpace).reverse.dropWhile isPySpace).reverse)

/-- The regex `\w` class (ASCII fragment): letters, digits, underscore. -/
def isWordChar (c : Char) : Bool :=
  c.isAlphanum || c = '_'

/-- Maximal run of characters satisfying `p`: the run and the remainder. -/
def takeRun (p : Char → Bool) (cs : List Char) : List Char × List Char :=
  (cs.takeWhile p, cs.dropWhile p)

/-- One journal line after parsing: the four columns of the DataFrame built
by `parse_journalctl_output` (timestamp, host, unit, message). -/
structure LogRecord where
  timestamp : String
  host : String
  unit : String
  message : String
deriving Repr, DecidableEq, Inhabited

/-- The timestamp portion `\w{3} +\d{1,2} +\d{2}:\d{2}:\d{2}` of the line
regex of `parse_journalctl_output`: three word characters, spaces, one or
two digits, spaces, and an HH:MM:SS group.  Returns the captured text and
the remainder.  Each greedy repetition here is followed by a pattern
element that matches none of the characters the repetition could give
back (a digit never follows a maximal digit run, a space never follows a
maximal space run), so Python's backtracking search is equivalent to this
maximal-munch scan; in particular `\d{1,2}` fails outright on a run of
three or more digits. -/
def matchTimestamp (cs : List Char) : Option (List Char × List Char) :=
  match cs with
  | c1 :: c2 :: c3 :: rest =>
    if isWordChar c1 && isWordChar c2 && isWordChar c3 then
      match takeRun (fun c => c = ' ') rest with
      | (sp1, r1) =>
        if sp1.isEmpty then none else
        match takeRun Char.isDigit r1 with
        | (ds, r2) =>
          if ds.length = 1 || ds.length = 2 then
            match takeRun (fun c => c = ' ') r2 with
            | (sp2, r3) =>
              if sp2.isEmpty then none else
              match r3 with
              | d1 :: d2 :: ':' :: d3 :: d4 :: ':' :: d5 :: d6 :: r4 =>
                if d1.isDigit && d2.isDigit && d3.isDigit &&
                    d4.isDigit && d5.isDigit && d6.isDigit then
                  some (c1 :: c2 :: c3 :: (sp1 ++ ds ++ sp2 ++
                    [d1, d2, ':', d3, d4, ':', d5, d6]), r4)
                else none
              | _ => none
          else none
    else none
  | _ => none

/-- `re.match` of the full line regex of `parse_journalctl_output`:

`(?P<timestamp>\w{3} +\d{1,2} +\d{2}:\d{2}:\d{2}) (?P<host>\S+) (?P<unit>[^:\x7b]+)(?:\x5b\d+\x5d)?: (?P<message>.*)`

(with `\x5b`/`\x5d` the literal square brackets of the PID group).
On success, the four captured groups.  As in `matchTimestamp`, Python's
backtracking is equivalent to maximal munch for this pattern: a shortened
`\S+` would force the following literal space to match a non-space
character, and a shortened `[^:\x5b]+` would force the following `\x5b` or
`:` to match a character that is neither, so no shorter run can ever
succeed.  The `.*` message group stops at a newline, as Python's `.`
does. -/
def matchLine (cs : List Char) : Option (List Char × List Char × List Char × List Char) :=
  match matchTimestamp cs with
  | none => none
  | some (ts, r) =>
    match r with
    | ' ' :: r1 =>
      match takeRun (fun c => !(isPySpace c)) r1 with
      | (host, r2) =>
        if host.isEmpty then none else
        match r2 with
        | ' ' :: r3 =>
          match takeRun (fun c => !(c = ':') && !(c = '[')) r3 with
          | (u, r4) =>
            if u.isEmpty then none else
            match r4 with
            | ':' :: ' ' :: msg =>
              some (ts, host, u, msg.takeWhile (fun c => !(c = '\n')))
            | '[' :: r5 =>
              match takeRun Char.isDigit r5 with
              | (ds, r6) =>
                if ds.isEmpty then none else
                match r6 with
                | ']' :: ':' :: ' ' :: msg =>
                  some (ts, host, u, msg.takeWhile (fun c => !(c = '\n')))
                | _ => none
            | _ => none
        | _ => none
    | _ => none

/-- One iteration of the parsing loop of `parse_journalctl_output`: on a
regex match the four captured groups become the row, otherwise the
fallback row carries the whole line in `message` with the other three
fields empty; in both cases every value is passed through `str.strip`
(the dict comprehension at the end of the loop body). -/
def parseLine (line : String) : LogRecord :=
  match matchLine line.toList with
  | some (ts, h, u, m) =>
      { timestamp := pyStrip (String.mk ts), host := pyStrip (String.mk h),
        unit := pyStrip (String.mk u), message := pyStrip (String.mk m) }
  | none =>
      { timestamp := pyStrip "", host := pyStrip "",
        unit := pyStrip "", message := pyStrip line }

/-- `parse_journalctl_output`: one `LogRecord` per line of
`output.splitlines()`, in order. -/
def parse_journalctl_output (output : String) : List LogRecord :=
  (pySplitlines output).map parseLine

/-- One pattern character of a term against one message character, under
`re.IGNORECASE`: pandas `str.contains` compiles the term as a regular
expression (its default `regex=True`), where `.` matches any character
except a newline and other characters match themselves up to case. -/
def charMatchesCI (p c : Char) : Bool :=
  (p = '.' && !(c = '\n')) || p.toLower = c.toLower

/-- The pattern matches a prefix of the text, character by character. -/
def matchAt : List Char → List Char → Bool
  | [], _ => true
  | _ :: _, [] => false
  | p :: ps, c :: cs => charMatchesCI p c && matchAt ps cs

/-- `re.search` with `re.IGNORECASE` for the modelled pattern fragment:
the pattern matches at some position of the text.  This models pandas
`Series.str.contains(term, case=False, na=False, regex=True)` for terms
whose only metacharacter is `.` (terms using other regex metacharacters
are outside the modelled fragment; `na=False` is moot since messages are
always strings here). -/
def regexSearchCI : List Char → List Char → Bool
  | pat, [] => matchAt pat []
  | pat, c :: cs => matchAt pat (c :: cs) || regexSearchCI pat cs

/-- `df['message'].str.contains(term, case=False, na=False)` at one row. -/
def termMatches (msg term : String) : Bool :=
  regexSearchCI term.toList msg.toList

/-- Exact-equality prefix test on character lists. -/
def listEqAt : List Char → List Char → Bool
  | [], _ => true
  | _ :: _, [] => false
  | p :: ps, c :: cs => p = c && listEqAt ps cs

/-- Literal substring search on character lists. -/
def substrSearch : List Char → List Char → Bool
  | pat, [] => listEqAt pat []
  | pat, c :: cs => listEqAt pat (c :: cs) || substrSearch pat cs

/-- Case-insensitive literal (non-regex) substring test: the reading of
"term occurs in the message" used by the specification, and the one the
code itself uses when highlighting (`highlight_message` escapes each term
with `re.escape` before compiling it). -/
def literalSubstrCI (msg term : String) : Bool :=
  substrSearch (term.toList.map Char.toLower) (msg.toList.map Char.toLower)

/-- The row of `df` at integer position `i` (always in range at every
use below). -/
def recAt (df : List LogRecord) (i : Nat) : LogRecord :=
  df.getD i default

/-- The conjunction of the per-term mask bits at one row: the row's mask
value after the `mask &= ...` loop of `search_logs`. -/
def matchesAll (terms : List String) (r : LogRecord) : Bool :=
  terms.all (fun t => termMatches r.message t)

/-- `df[mask].index.tolist()`: the positions whose mask bit is true, in
ascending order. -/
def matchIdxs (df : List LogRecord) (terms : List String) : List Nat :=
  (List.range df.length).filter (fun i => matchesAll terms (recAt df i))

/-- `df.iloc[idxs]` (also `df[mask]` when `idxs` are the true-mask
positions in ascending order): the rows at the given positions, in the
given order. -/
def selectIdxs (df : List LogRecord) (idxs : List Nat) : List LogRecord :=
  idxs.map (fun i => recAt df i)

/-- Position `j` lies in the context window of match position `i`:
`j in range(max(0, i - delta), min(len(df), i + delta + 1))`, over the
integers (so a negative `delta` gives an empty window). -/
def inWindow (n : Nat) (delta : Int) (i j : Nat) : Bool :=
  decide (max 0 ((i : Int) - delta) ≤ (j : Int) ∧
    (j : Int) < min (n : Int) ((i : Int) + delta + 1))

/-- `sorted(context_idxs)` where `context_idxs` is the set union of the
context windows of all matches.  Since every window is a sub-range of
`range(n)`, the sorted deduplicated union is exactly the ascending scan
of `range(n)` keeping the positions covered by some window. -/
def contextIdxs (n : Nat) (m : List Nat) (delta : Int) : List Nat :=
  (List.range n).filter (fun j => m.any (fun i => inWindow n delta i j))

/-- `search_logs(df, terms, delta)`: with no terms, `df` itself (the
`if not terms` short-circuit); otherwise the matching rows, expanded by
`delta` lines of context when `delta != 0` and at least one row
matched. -/
def search_logs (df : List LogRecord) (terms : List String) (delta : Int) :
    List LogRecord :=
  if terms = [] then df
  else
    let m := matchIdxs df terms
    if delta = 0 ∨ m = [] then selectIdxs df m
    else selectIdxs df (contextIdxs df.length m delta)

/-- The positions of the rows `search_logs` returns in its term-filtering
branches (the display index set of the specification). -/
def displayIdxs (df : List LogRecord) (terms : List String) (delta : Int) :
    List Nat :=
  if delta = 0 ∨ matchIdxs df terms = [] then matchIdxs df terms
  else contextIdxs df.length (matchIdxs df terms) delta

/-- A three-row sample log used to instantiate the general theorems. -/
def sampleDf : List LogRecord :=
  [⟨"", "", "", "x"⟩, ⟨"", "", "", "y"⟩, ⟨"", "", "", "x"⟩]

/-- Positions returned by the mask filter are the in-range positions whose
row satisfies every term. -/
theorem mem_matchIdxs (df : List LogRecord) (terms : List String) (i : Nat) :
    i ∈ matchIdxs df terms ↔ i < df.length ∧ matchesAll terms (recAt df i) = true := by
  simp [matchIdxs, List.mem_filter, List.mem_range]

/-- Selecting the mask-true positions of `range (length l)` out of `l`
is filtering `l`. -/
theorem filter_range_getD {α : Type} [Inhabited α] (p : α → Bool) :
    ∀ l : List α,
      ((List.range l.length).filter (fun i => p (l.getD i default))).map
        (fun i => l.getD i default) = l.filter p
  | [] => by simp
  | a :: l => by
    have IH := filter_range_getD p l
    by_cases hp : p a = true <;>
      simp [List.range_succ_eq_map, List.filter_cons, hp, List.filter_map,
        Function.comp_def, List.map_map] <;>
      simpa [List.getD_eq_getElem?_getD] using IH

/-- In its term-filtering branches, `search_logs` returns exactly the rows
at the display index set. -/
theorem search_logs_eq_select (df : List LogRecord) (terms : List String)
    (delta : Int) (hT : terms ≠ []) :
    search_logs df terms delta = selectIdxs df (displayIdxs df terms delta) := by
  simp only [search_logs, displayIdxs, if_neg hT]
  split <;> rfl

/-- C1: No-loss — for every input text, `parse_journalctl_output` produces
exactly one `LogRecord` per input line, in the original order, whatever
the content of each line: the output has as many records as the text has
lines, and the record at every position `i` is the parse of line `i`. -/
theorem C1_no_loss (s : String) :
    (parse_journalctl_output s).length = (pySplitlines s).length ∧
    ∀ i, i < (pySplitlines s).length →
      (parse_journalctl_output s).getD i default =
        parseLine ((pySplitlines s).getD i "") := by
  refine ⟨by simp [parse_journalctl_output], ?_⟩
  intro i hi
  have hi2 : i < (parse_journalctl_output s).length := by
    simpa [parse_journalctl_output] using hi
  rw [List.getD_eq_getElem _ _ hi2, List.getD_eq_getElem _ _ hi]
  simp [parse_journalctl_output]

/-- Witness for C1 on the two-line text containing a structured line and a
garbage line. -/
theorem C1_no_loss_witness :
    (parse_journalctl_output "Jul 29 10:00:01 host sshd[123]: hi\ngarbage").length =
      (pySplitlines "Jul 29 10:00:01 host sshd[123]: hi\ngarbage").length ∧
    (parse_journalctl_output "Jul 29 10:00:01 host sshd[123]: hi\ngarbage").getD 1 default =
      parseLine ((pySplitlines "Jul 29 10:00:01 host sshd[123]: hi\ngarbage").getD 1 "") :=
  ⟨(C1_no_loss "Jul 29 10:00:01 host sshd[123]: hi\ngarbage").1,
   (C1_no_loss "Jul 29 10:00:01 host sshd[123]: hi\ngarbage").2 1 (by decide)⟩

/-- C2 counterexample: the line `" x"` does not match the structured
pattern, yet its fallback record's `message` is `"x"`, not the original
line verbatim — the parsing loop passes every field, the fallback message
included, through Python `str.strip`. -/
theorem C2_strip_counterexample :
    matchLine (String.toList " x") = none ∧ (parseLine " x").message ≠ " x" := by
  exact ⟨by rfl, by decide⟩

/-- C2 (amended): every line that does not match the structured pattern
produces a record whose `message` is the original line with leading and
trailing whitespace stripped (Python `str.strip`) and whose `timestamp`,
`host` and `unit` are the empty string. -/
theorem C2_fallback (line : String) (h : matchLine line.toList = none) :
    parseLine line =
      { timestamp := "", host := "", unit := "", message := pyStrip line } := by
  unfold parseLine
  rw [h]
  rfl

/-- Witness for C2 on a concrete unparseable line. -/
theorem C2_fallback_witness :
    parseLine "garbage line" =
      { timestamp := "", host := "", unit := "", message := pyStrip "garbage line" } :=
  C2_fallback "garbage line" (by rfl)

/-- C3: the code's filter treats a term as a regular expression (pandas
`str.contains` defaults to `regex=True`), not as a literal substring: the
term `"a.c"` selects the row whose message is `"abc"` although `"a.c"` is
not a literal case-insensitive substring of `"abc"` — while the code's own
highlighter escapes terms with `re.escape`, i.e. treats them literally. -/
theorem C3_regex_not_literal :
    search_logs [⟨"", "", "", "abc"⟩] ["a.c"] 0 = [⟨"", "", "", "abc"⟩] ∧
    literalSubstrCI "abc" "a.c" = false := by
  exact ⟨by decide, by decide⟩

/-- C4: Context expansion — for positive radius, `search_logs` returns
exactly the rows at the index set `\x7b j | ∃ i ∈ M, max 0 (i-R) ≤ j ≤
min (N-1) (i+R) \x7d`, in strictly ascending order with no duplicate and
no index outside `[0, N)`. -/
theorem C4_context_expansion (df : List LogRecord) (terms : List String)
    (delta : Int) (hT : terms ≠ []) (hd : 0 < delta) :
    search_logs df terms delta =
      selectIdxs df (contextIdxs df.length (matchIdxs df terms) delta) ∧
    (∀ j, j ∈ contextIdxs df.length (matchIdxs df terms) delta ↔
      ∃ i ∈ matchIdxs df terms,
        max 0 ((i : Int) - delta) ≤ (j : Int) ∧
        (j : Int) ≤ min ((df.length : Int) - 1) ((i : Int) + delta)) ∧
    (contextIdxs df.length (matchIdxs df terms) delta).Sorted (· < ·) ∧
    (contextIdxs df.length (matchIdxs df terms) delta).Nodup ∧
    ∀ j ∈ contextIdxs df.length (matchIdxs df terms) delta, j < df.length := by
  refine ⟨?_, ?_, ?_, ?_, ?_⟩
  · by_cases hm : matchIdxs df terms = []
    · simp [search_logs, hT, hm, selectIdxs, contextIdxs]
    · have hcond : ¬(delta = 0 ∨ matchIdxs df terms = []) := by
        push_neg
        exact ⟨by omega, hm⟩
      simp [search_logs, hT, hcond]
  · intro j
    simp only [contextIdxs, List.mem_filter, List.mem_range, List.any_eq_true,
      inWindow, decide_eq_true_eq]
    constructor
    · rintro ⟨hj, i, him, hw⟩
      exact ⟨i, him, by omega⟩
    · rintro ⟨i, him, hw⟩
      have hi : i < df.length := ((mem_matchIdxs df terms i).mp him).1
      exact ⟨by omega, i, him, by omega⟩
  · exact List.Pairwise.filter _ (List.sorted_lt_range df.length)
  · exact List.Nodup.filter _ (List.nodup_range df.length)
  · intro j hj
    have := (List.mem_filter.mp hj).1
    exact List.mem_range.mp this

/-- Witness for C4 at the sample log, term `"x"` and radius 1. -/
theorem C4_context_expansion_witness :
    search_logs sampleDf ["x"] 1 =
      selectIdxs sampleDf (contextIdxs sampleDf.length (matchIdxs sampleDf ["x"]) 1) ∧
    (∀ j, j ∈ contextIdxs sampleDf.length (matchIdxs sampleDf ["x"]) 1 ↔
      ∃ i ∈ matchIdxs sampleDf ["x"],
        max 0 ((i : Int) - 1) ≤ (j : Int) ∧
        (j : Int) ≤ min ((sampleDf.length : Int) - 1) ((i : Int) + 1)) ∧
    (contextIdxs sampleDf.length (matchIdxs sampleDf ["x"]) 1).Sorted (· < ·) ∧
    (contextIdxs sampleDf.length (matchIdxs sampleDf ["x"]) 1).Nodup ∧
    ∀ j ∈ contextIdxs sampleDf.length (matchIdxs sampleDf ["x"]) 1, j < sampleDf.length :=
  C4_context_expansion sampleDf ["x"] 1 (by decide) (by decide)

/-- C5: Radius 0 is identity — with a non-empty term list and `delta = 0`,
`search_logs` returns exactly the matching rows, in ascending index
order, with no context rows: the rows at the match index set, which are
precisely the rows whose message satisfies every term, kept in their
original order. -/
theorem C5_radius_zero (df : List LogRecord) (terms : List String)
    (hT : terms ≠ []) :
    search_logs df terms 0 = selectIdxs df (matchIdxs df terms) ∧
    search_logs df terms 0 = df.filter (matchesAll terms) := by
  have h1 : search_logs df terms 0 = selectIdxs df (matchIdxs df terms) := by
    simp [search_logs, hT]
  refine ⟨h1, h1.trans ?_⟩
  simpa [selectIdxs, matchIdxs, recAt] using
    filter_range_getD (matchesAll terms) df

/-- Witness for C5 at the sample log and term `"x"`. -/
theorem C5_radius_zero_witness :
    search_logs sampleDf ["x"] 0 = selectIdxs sampleDf (matchIdxs sampleDf ["x"]) ∧
    search_logs sampleDf ["x"] 0 = sampleDf.filter (matchesAll ["x"]) :=
  C5_radius_zero sampleDf ["x"] (by decide)

/-- C6: Empty term list — for every parsed record sequence and every
delta, `search_logs` with no terms returns the full parsed sequence
unchanged (the caller-level short-circuit `if not terms`). -/
theorem C6_empty_terms (s : String) (delta : Int) :
    search_logs (parse_journalctl_output s) [] delta =
      parse_journalctl_output s := by
  simp [search_logs]

/-- C7: Term-removal monotonicity — every index matching a term list
still matches after any one term is removed from the list. -/
theorem C7_term_removal (df : List LogRecord) (l1 l2 : List String)
    (t : String) (i : Nat) (h : i ∈ matchIdxs df (l1 ++ t :: l2)) :
    i ∈ matchIdxs df (l1 ++ l2) := by
  simp only [matchIdxs, List.mem_filter, List.mem_range] at h ⊢
  refine ⟨h.1, ?_⟩
  have h2 := h.2
  simp only [matchesAll, List.all_append, List.all_cons, Bool.and_eq_true] at h2 ⊢
  exact ⟨h2.1, h2.2.2⟩

/-- Witness for C7: removing the second `"x"` from the list
`["x", "x"]` keeps index 0 matching. -/
theorem C7_term_removal_witness : 0 ∈ matchIdxs sampleDf (["x"] ++ []) :=
  C7_term_removal sampleDf ["x"] [] "x" 0 (by decide)

/-- C8: Radius monotonicity — for the same log and terms (hence the same
match set) and radii `0 ≤ d1 < d2`, every display index at radius `d1` is
a display index at radius `d2`; and in both cases `search_logs` returns
the rows at those display indices. -/
theorem C8_radius_mono (df : List LogRecord) (terms : List String)
    (d1 d2 : Int) (hT : terms ≠ []) (h0 : 0 ≤ d1) (h12 : d1 < d2) :
    (∀ j, j ∈ displayIdxs df terms d1 → j ∈ displayIdxs df terms d2) ∧
    search_logs df terms d1 = selectIdxs df (displayIdxs df terms d1) ∧
    search_logs df terms d2 = selectIdxs df (displayIdxs df terms d2) := by
  refine ⟨?_, search_logs_eq_select df terms d1 hT,
    search_logs_eq_select df terms d2 hT⟩
  intro j hj
  by_cases hm : matchIdxs df terms = []
  · simp only [displayIdxs, hm, or_true, if_true] at hj ⊢
    exact hj
  · have hd2 : ¬(d2 = 0 ∨ matchIdxs df terms = []) := by
      push_neg
      exact ⟨by omega, hm⟩
    rw [displayIdxs, if_neg hd2]
    by_cases h1 : d1 = 0
    · rw [displayIdxs, if_pos (Or.inl h1)] at hj
      have hji := (mem_matchIdxs df terms j).mp hj
      simp only [contextIdxs, List.mem_filter, List.mem_range,
        List.any_eq_true, inWindow, decide_eq_true_eq]
      exact ⟨hji.1, j, hj, by omega⟩
    · have hd1 : ¬(d1 = 0 ∨ matchIdxs df terms = []) := by
        push_neg
        exact ⟨h1, hm⟩
      rw [displayIdxs, if_neg hd1] at hj
      simp only [contextIdxs, List.mem_filter, List.mem_range,
        List.any_eq_true, inWindow, decide_eq_true_eq] at hj ⊢
      obtain ⟨hjn, i, him, hw⟩ := hj
      exact ⟨hjn, i, him, by omega⟩

/-- Witness for C8 at the sample log, term `"x"`, radii 0 and 1. -/
theorem C8_radius_mono_witness :
    (∀ j, j ∈ displayIdxs sampleDf ["x"] 0 → j ∈ displayIdxs sampleDf ["x"] 1) ∧
    search_logs sampleDf ["x"] 0 = selectIdxs sampleDf (displayIdxs sampleDf ["x"] 0) ∧
    search_logs sampleDf ["x"] 1 = selectIdxs sampleDf (displayIdxs sampleDf ["x"] 1) :=
  C8_radius_mono sampleDf ["x"] 0 1 (by decide) (by decide) (by decide)

/-- C9: Empty match — with a non-empty term list matching no record,
`search_logs` returns the empty sequence for every radius. -/
theorem C9_empty_match (df : List LogRecord) (terms : List String)
    (delta : Int) (hT : terms ≠ []) (hm : matchIdxs df terms = []) :
    search_logs df terms delta = [] := by
  simp [search_logs, hT, hm, selectIdxs]

/-- Witness for C9 at the sample log with a term matching nothing. -/
theorem C9_empty_match_witness : search_logs sampleDf ["zzz"] 5 = [] :=
  C9_empty_match sampleDf ["zzz"] 5 (by decide) (by decide)

/-- C10: Negative delta — with matches present and any negative delta,
every context window `range (max 0 (i - delta)) (min N (i + delta + 1))`
is empty, so `search_logs` returns the empty sequence. -/
theorem C10_negative_delta (df : List LogRecord) (terms : List String)
    (delta : Int) (hT : terms ≠ []) (hm : matchIdxs df terms ≠ [])
    (hd : delta < 0) :
    search_logs df terms delta = [] := by
  have hcond : ¬(delta = 0 ∨ matchIdxs df terms = []) := by
    push_neg
    exact ⟨by omega, hm⟩
  have hctx : contextIdxs df.length (matchIdxs df terms) delta = [] := by
    rw [contextIdxs, List.filter_eq_nil_iff]
    intro j hj
    simp only [List.any_eq_true, not_exists, not_and, inWindow,
      decide_eq_true_eq]
    intro i him
    omega
  simp [search_logs, hT, hcond, hctx, selectIdxs]

/-- Witness for C10 at the sample log, term `"x"` and delta `-1`. -/
theorem C10_negative_delta_witness : search_logs sampleDf ["x"] (-1) = [] :=
  C10_negative_delta sampleDf ["x"] (-1) (by decide) (by decide) (by decide)

end Logaround
